import Mathlib

/-!
# Verification of the e-commerce sales analysis engine

A shallow embedding of the cleaning-and-aggregation engine
(`src/data_cleaner.py`, `src/analyzer.py`, `src/insights_generator.py`).
Records are lists of structures, monetary values are rationals, and the
pandas operations used by the source (fillna, drop_duplicates, quantile
with linear interpolation, groupby with sorted keys, sort_values, head,
round) are modelled explicitly below.  String columns are compared by
code-point lexicographic order, the order pandas uses when sorting
group keys.
-/

namespace Sales

/-! ## String ordering (code-point lexicographic) -/

/-- Strict lexicographic order on character lists, by code point. -/
def charListLt : List Char → List Char → Bool
  | [], [] => false
  | [], _ :: _ => true
  | _ :: _, [] => false
  | a :: as, b :: bs =>
    Nat.blt a.toNat b.toNat || (a.toNat == b.toNat && charListLt as bs)

/-- Reflexive lexicographic order on character lists, by code point. -/
def charListLe : List Char → List Char → Bool
  | [], _ => true
  | _ :: _, [] => false
  | a :: as, b :: bs =>
    Nat.blt a.toNat b.toNat || (a.toNat == b.toNat && charListLe as bs)

/-- Strict lexicographic order on strings. -/
def strLt (a b : String) : Bool := charListLt a.data b.data

/-- Reflexive lexicographic order on strings. -/
def strLe (a b : String) : Bool := charListLe a.data b.data

/-! ## Data model -/

/-- A calendar date, as carried by the `Order_Date` column. -/
structure SDate where
  year : Int
  month : Nat
  day : Nat
deriving DecidableEq, Repr

/-- One raw sales transaction, the row schema declared by the loader
(`src/data_loader.py`): Order_ID, Order_Date, Customer_ID, Product_Name,
Category, Quantity, Unit_Price, Total_Amount, Discount, Region,
Payment_Method, Customer_Age_Group.  Only `Customer_Age_Group` may be
missing (`none` models a null cell). -/
structure SalesRecord where
  Order_ID : String
  Order_Date : SDate
  Customer_ID : String
  Product_Name : String
  Category : String
  Quantity : Int
  Unit_Price : ℚ
  Total_Amount : ℚ
  Discount : ℚ
  Region : String
  Payment_Method : String
  Customer_Age_Group : Option String
deriving DecidableEq, Repr

/-- A record after `clean_sales_data`: the age group is filled and the
derived columns Year, Month, Month_Name, Quarter, Day_of_Week,
Revenue_After_Discount have been added. -/
structure CleanedRecord where
  Order_ID : String
  Order_Date : SDate
  Customer_ID : String
  Product_Name : String
  Category : String
  Quantity : Int
  Unit_Price : ℚ
  Total_Amount : ℚ
  Discount : ℚ
  Region : String
  Payment_Method : String
  Customer_Age_Group : String
  Year : Int
  Month : Nat
  Month_Name : String
  Quarter : Nat
  Day_of_Week : String
  Revenue_After_Discount : ℚ
deriving DecidableEq, Repr

/-- The observability counters printed by `clean_sales_data`. -/
structure CleanReport where
  missing_filled : Nat
  duplicates_removed : Nat
  outliers_capped : Nat
deriving DecidableEq, Repr

/-! ## Generic list helpers modelling pandas primitives -/

/-- `drop_duplicates` keeping the first occurrence of each row.
`seen` accumulates the values already encountered. -/
def dedupSeen {α} [DecidableEq α] (seen : List α) : List α → List α
  | [] => []
  | x :: xs => if x ∈ seen then dedupSeen seen xs else x :: dedupSeen (x :: seen) xs

/-- `duplicated().sum()`: the number of rows equal to an earlier row. -/
def countDups {α} [DecidableEq α] (seen : List α) : List α → Nat
  | [] => 0
  | x :: xs =>
    if x ∈ seen then 1 + countDups seen xs else countDups (x :: seen) xs

/-- Round-half-to-even to an integer, the rounding used by
`numpy.round` (hence by pandas `.round`). -/
def rne (x : ℚ) : Int :=
  let n : Int := ⌊x⌋
  let f : ℚ := x - n
  if f < 1/2 then n
  else if 1/2 < f then n + 1
  else if n % 2 = 0 then n else n + 1

/-- `.round(2)`: round to two decimal places, half to even. -/
def round2 (x : ℚ) : ℚ := (rne (100 * x) : ℚ) / 100

/-- `Series.quantile(p)` with the default linear interpolation between
order statistics: `h = p * (n - 1)`, and the result interpolates between
the sorted values at positions `⌊h⌋` and `⌊h⌋ + 1`.  `none` on an empty
series (pandas returns NaN). -/
def quantileLin (p : ℚ) (l : List ℚ) : Option ℚ :=
  if l.length = 0 then none
  else
    let s := List.insertionSort (· ≤ ·) l
    let h : ℚ := p * ((l.length : ℚ) - 1)
    let i : Nat := (⌊h⌋).toNat
    let g : ℚ := h - (i : ℚ)
    some (s.getD i 0 + g * (s.getD (i + 1) 0 - s.getD i 0))

/-- The IQR outlier bounds of `clean_sales_data`:
`[Q1 - 1.5*IQR, Q3 + 1.5*IQR]` over the given `Total_Amount` values. -/
def boundsOf (amounts : List ℚ) : Option (ℚ × ℚ) :=
  match quantileLin (1/4) amounts, quantileLin (3/4) amounts with
  | some q1, some q3 => some (q1 - 3/2 * (q3 - q1), q3 + 3/2 * (q3 - q1))
  | _, _ => none

/-! ## `clean_sales_data` (`src/data_cleaner.py`) -/

/-- Step 1 of cleaning: `fillna('Unknown')` on `Customer_Age_Group`. -/
def fillAge (r : SalesRecord) : SalesRecord :=
  { r with Customer_Age_Group := some (r.Customer_Age_Group.getD "Unknown") }

/-- Step 3 of cleaning: clamp `Total_Amount` to the outlier bounds. -/
def clampAmount (lb ub : ℚ) (r : SalesRecord) : SalesRecord :=
  { r with Total_Amount :=
      if r.Total_Amount < lb then lb
      else if ub < r.Total_Amount then ub
      else r.Total_Amount }

/-- English month name, as produced by `strftime('%B')`. -/
def monthName : Nat → String
  | 1 => "January" | 2 => "February" | 3 => "March" | 4 => "April"
  | 5 => "May" | 6 => "June" | 7 => "July" | 8 => "August"
  | 9 => "September" | 10 => "October" | 11 => "November" | 12 => "December"
  | _ => ""

/-- Calendar quarter from the month, as produced by `dt.quarter`. -/
def quarterOf (m : Nat) : Nat := (m + 2) / 3

/-- Gregorian day-of-week name via Zeller's congruence, as produced by
`dt.day_name()`. -/
def dayOfWeekName (d : SDate) : String :=
  let mz : Nat := if d.month ≤ 2 then d.month + 12 else d.month
  let yz : Nat := if d.month ≤ 2 then (d.year - 1).toNat else d.year.toNat
  let K := yz % 100
  let J := yz / 100
  let h := (d.day + 13 * (mz + 1) / 5 + K + K / 4 + J / 4 + 5 * J) % 7
  match h with
  | 0 => "Saturday" | 1 => "Sunday" | 2 => "Monday" | 3 => "Tuesday"
  | 4 => "Wednesday" | 5 => "Thursday" | _ => "Friday"

/-- Step 5 of cleaning: add the derived columns. -/
def finalize (r : SalesRecord) : CleanedRecord :=
  { Order_ID := r.Order_ID
    Order_Date := r.Order_Date
    Customer_ID := r.Customer_ID
    Product_Name := r.Product_Name
    Category := r.Category
    Quantity := r.Quantity
    Unit_Price := r.Unit_Price
    Total_Amount := r.Total_Amount
    Discount := r.Discount
    Region := r.Region
    Payment_Method := r.Payment_Method
    Customer_Age_Group := r.Customer_Age_Group.getD "Unknown"
    Year := r.Order_Date.year
    Month := r.Order_Date.month
    Month_Name := monthName r.Order_Date.month
    Quarter := quarterOf r.Order_Date.month
    Day_of_Week := dayOfWeekName r.Order_Date
    Revenue_After_Discount := r.Total_Amount - r.Discount }

/-- `clean_sales_data` (`src/data_cleaner.py`): fill missing age groups,
drop exact-duplicate rows keeping the first occurrence, clamp
`Total_Amount` to the IQR bounds computed after duplicate removal, and
add the derived columns.  Returns the cleaning report alongside the
cleaned records. -/
def clean_sales_data (rs : List SalesRecord) : CleanReport × List CleanedRecord :=
  let missing := (rs.filter (fun r => r.Customer_Age_Group = none)).length
  let filled := rs.map fillAge
  let deduped := dedupSeen [] filled
  let dups := countDups [] filled
  let amounts := deduped.map (fun r => r.Total_Amount)
  let clampedCapped : List SalesRecord × Nat :=
    match boundsOf amounts with
    | none => (deduped, 0)
    | some (lb, ub) =>
      (deduped.map (clampAmount lb ub),
       (deduped.filter
         (fun (r : SalesRecord) => decide (r.Total_Amount < lb) || decide (ub < r.Total_Amount))).length)
  (⟨missing, dups, clampedCapped.2⟩, clampedCapped.1.map finalize)

/-- Recompute the derived columns of a cleaned record from its base
columns, as step 5 of `clean_sales_data` does when the pipeline is run
on an already-cleaned frame. -/
def rederive (r : CleanedRecord) : CleanedRecord :=
  { r with
    Year := r.Order_Date.year
    Month := r.Order_Date.month
    Month_Name := monthName r.Order_Date.month
    Quarter := quarterOf r.Order_Date.month
    Day_of_Week := dayOfWeekName r.Order_Date
    Revenue_After_Discount := r.Total_Amount - r.Discount }

/-- Step 3 of cleaning on a cleaned frame. -/
def clampAmountC (lb ub : ℚ) (r : CleanedRecord) : CleanedRecord :=
  { r with Total_Amount :=
      if r.Total_Amount < lb then lb
      else if ub < r.Total_Amount then ub
      else r.Total_Amount }

/-- `clean_sales_data` applied to an already-cleaned frame (the
idempotence scenario): the age-group column is a plain string column so
`isnull` finds nothing; duplicates are detected by full-row equality
including the derived columns; outlier clamping and the derived-column
assignment run exactly as on a raw frame. -/
def clean_sales_data_again (rs : List CleanedRecord) : CleanReport × List CleanedRecord :=
  let deduped := dedupSeen [] rs
  let dups := countDups [] rs
  let amounts := deduped.map (fun r => r.Total_Amount)
  let clampedCapped : List CleanedRecord × Nat :=
    match boundsOf amounts with
    | none => (deduped, 0)
    | some (lb, ub) =>
      (deduped.map (clampAmountC lb ub),
       (deduped.filter
         (fun (r : CleanedRecord) => decide (r.Total_Amount < lb) || decide (ub < r.Total_Amount))).length)
  (⟨0, dups, clampedCapped.2⟩, clampedCapped.1.map rederive)

/-! ## `sort_values(ascending=False)`

pandas sorts the groupby result (whose keys are in ascending order) by
the revenue column in descending order with the default
`kind='quicksort'`, numpy's introsort.  Up to numpy's 16-element
small-array threshold that algorithm is an insertion sort which keeps
equal-revenue rows in their original (key-ascending) order; beyond the
threshold its partition passes may reorder exact revenue ties.  We
model the sort as a stable insertion sort by strict descending
revenue: exact for tables of at most 16 groups, and agreeing with the
source on the descending revenue order — though not necessarily on the
relative order of exact ties — for larger tables. -/

/-- Insert `x` before the first element whose sort value is `≤` its own,
so that earlier elements win ties (stability). -/
def insertRev {α} (rev : α → ℚ) (x : α) : List α → List α
  | [] => [x]
  | y :: ys => if rev x < rev y then y :: insertRev rev x ys else x :: y :: ys

/-- Stable sort by strict descending `rev`. -/
def sortRev {α} (rev : α → ℚ) (l : List α) : List α :=
  l.foldr (insertRev rev) []

/-- The sorted, duplicate-free keys of a pandas `groupby`, for a
single string key column. -/
def groupKeysStr (key : CleanedRecord → String) (df : List CleanedRecord) : List String :=
  List.insertionSort (fun a b => strLe a b = true) (dedupSeen [] (df.map key))

/-! ## `analyzer.py` row schemas -/

/-- A row of `analyze_by_category` / `analyze_by_region`: the grouping
key is the index; columns Total_Revenue, Avg_Order_Value, Order_Count,
Total_Quantity, and the Revenue_Share_% column added after sorting. -/
structure ShareRow where
  key : String
  Total_Revenue : ℚ
  Avg_Order_Value : ℚ
  Order_Count : Nat
  Total_Quantity : Int
  Revenue_Share_Pct : ℚ
deriving DecidableEq, Repr

/-- A row of `analyze_top_products`, keyed by (Product_Name, Category). -/
structure TopRow where
  Product_Name : String
  Category : String
  Total_Revenue : ℚ
  Order_Count : Nat
  Total_Quantity : Int
  Avg_Price : ℚ
deriving DecidableEq, Repr

/-- A row of `analyze_payment_methods`. -/
structure PayRow where
  key : String
  Total_Revenue : ℚ
  Transaction_Count : Nat
  Order_Count : Nat
  Usage_Pct : ℚ
deriving DecidableEq, Repr

/-- A row of `analyze_customer_demographics`. -/
structure DemoRow where
  key : String
  Unique_Customers : Nat
  Total_Revenue : ℚ
  Avg_Order_Value : ℚ
  Total_Orders : Nat
deriving DecidableEq, Repr

/-- A row of the monthly table of `analyze_by_time`, keyed by
(Year, Month). -/
structure MonthlyRow where
  Year : Int
  Month : Nat
  Revenue : ℚ
  Orders : Nat
  Quantity : Int
deriving DecidableEq, Repr

/-- The ten scalar KPIs of `calculate_kpis`.  The two means are `none`
on an empty frame (pandas yields NaN there). -/
structure KPISet where
  Total_Revenue : ℚ
  Total_Orders : Nat
  Average_Order_Value : Option ℚ
  Total_Quantity_Sold : Int
  Average_Quantity_per_Order : Option ℚ
  Total_Discount_Given : ℚ
  Discount_Rate : ℚ
  Unique_Customers : Nat
  Unique_Products : Nat
  Unique_Categories : Nat
deriving DecidableEq, Repr

/-! ## `analyzer.py` functions -/

/-- `calculate_kpis` (`src/analyzer.py` lines 22-35). -/
def calculate_kpis (df : List CleanedRecord) : KPISet :=
  let T : ℚ := (df.map (fun r => r.Total_Amount)).sum
  let D : ℚ := (df.map (fun r => r.Discount)).sum
  let Q : Int := (df.map (fun r => r.Quantity)).sum
  { Total_Revenue := T
    Total_Orders := df.length
    Average_Order_Value :=
      if df.length = 0 then none else some (T / (df.length : ℚ))
    Total_Quantity_Sold := Q
    Average_Quantity_per_Order :=
      if df.length = 0 then none else some ((Q : ℚ) / (df.length : ℚ))
    Total_Discount_Given := D
    Discount_Rate := if 0 < T then D / T * 100 else 0
    Unique_Customers := (dedupSeen [] (df.map (fun r => r.Customer_ID))).length
    Unique_Products := (dedupSeen [] (df.map (fun r => r.Product_Name))).length
    Unique_Categories := (dedupSeen [] (df.map (fun r => r.Category))).length }

/-- The grouped-and-aggregated (but not yet sorted) frame of
`analyze_by_category` / `analyze_by_region`, parameterized by the
grouping column.  The `.round(2)` of the source applies to every
aggregated column; on the integer-valued count and quantity columns it
is the identity.  The share column does not exist yet (placeholder 0). -/
def shareBase (key : CleanedRecord → String) (df : List CleanedRecord) : List ShareRow :=
  (groupKeysStr key df).map (fun k =>
    let g := df.filter (fun r => key r = k)
    { key := k
      Total_Revenue := round2 ((g.map (fun r => r.Total_Amount)).sum)
      Avg_Order_Value := round2 ((g.map (fun r => r.Total_Amount)).sum / (g.length : ℚ))
      Order_Count := g.length
      Total_Quantity := (g.map (fun r => r.Quantity)).sum
      Revenue_Share_Pct := 0 })

/-- Add the Revenue_Share_% column against the table's own revenue
total, as the source does after sorting. -/
def shareUpd (T : ℚ) (row : ShareRow) : ShareRow :=
  { row with Revenue_Share_Pct := round2 (row.Total_Revenue / T * 100) }

/-- `analyze_by_category` (`src/analyzer.py` lines 53-76): group by
Category, aggregate, sort descending by revenue, add revenue share. -/
def analyze_by_category (df : List CleanedRecord) : List ShareRow :=
  let sorted := sortRev (fun row => row.Total_Revenue) (shareBase (fun r => r.Category) df)
  let T := (sorted.map (fun row => row.Total_Revenue)).sum
  sorted.map (shareUpd T)

/-- `analyze_by_region` (`src/analyzer.py` lines 78-101): identical to
`analyze_by_category` with grouping column Region. -/
def analyze_by_region (df : List CleanedRecord) : List ShareRow :=
  let sorted := sortRev (fun row => row.Total_Revenue) (shareBase (fun r => r.Region) df)
  let T := (sorted.map (fun row => row.Total_Revenue)).sum
  sorted.map (shareUpd T)

/-- Lexicographic (Product_Name, Category) group-key order used by the
two-column `groupby` of `analyze_top_products`. -/
def pairLe (a b : String × String) : Bool :=
  strLt a.1 b.1 || (a.1 == b.1 && strLe a.2 b.2)

/-- The grouped and aggregated (Product_Name, Category) frame of
`analyze_top_products`, with keys in ascending lexicographic order as
produced by `groupby`, before the revenue sort. -/
def topBase (df : List CleanedRecord) : List TopRow :=
  (List.insertionSort (fun a b => pairLe a b = true)
    (dedupSeen [] (df.map (fun r => (r.Product_Name, r.Category))))).map (fun k =>
    let g := df.filter (fun r => r.Product_Name = k.1 ∧ r.Category = k.2)
    { Product_Name := k.1
      Category := k.2
      Total_Revenue := round2 ((g.map (fun r => r.Total_Amount)).sum)
      Order_Count := g.length
      Total_Quantity := (g.map (fun r => r.Quantity)).sum
      Avg_Price := round2 ((g.map (fun r => r.Unit_Price)).sum / (g.length : ℚ)) })

/-- The grouped, aggregated and revenue-sorted frame of
`analyze_top_products`, before `head(top_n)` is applied. -/
def topAll (df : List CleanedRecord) : List TopRow :=
  sortRev (fun row => row.Total_Revenue) (topBase df)

/-- `analyze_top_products` (`src/analyzer.py` lines 144-168): group by
(Product_Name, Category), aggregate, sort descending by revenue, and
apply `head(top_n)` (default 10).  pandas `head` returns the first
`n` rows for `n ≥ 0` and all but the last `|n|` rows for `n < 0`. -/
def analyze_top_products (df : List CleanedRecord) (top_n : Int) : List TopRow :=
  if 0 ≤ top_n then (topAll df).take top_n.toNat
  else (topAll df).take ((topAll df).length - (-top_n).toNat)

/-- `analyze_customer_demographics` (`src/analyzer.py` lines 170-192). -/
def analyze_customer_demographics (df : List CleanedRecord) : List DemoRow :=
  let rows : List DemoRow := (groupKeysStr (fun r => r.Customer_Age_Group) df).map (fun k =>
    let g := df.filter (fun r => r.Customer_Age_Group = k)
    { key := k
      Unique_Customers := (dedupSeen [] (g.map (fun r => r.Customer_ID))).length
      Total_Revenue := round2 ((g.map (fun r => r.Total_Amount)).sum)
      Avg_Order_Value := round2 ((g.map (fun r => r.Total_Amount)).sum / (g.length : ℚ))
      Total_Orders := (g.map (fun r => r.Order_ID)).length })
  sortRev (fun row => row.Total_Revenue) rows

/-- Add the Usage_% column of `analyze_payment_methods`, an order-count
share against the table's own order-count total. -/
def usageUpd (T : Nat) (row : PayRow) : PayRow :=
  { row with Usage_Pct := round2 ((row.Order_Count : ℚ) / (T : ℚ) * 100) }

/-- The grouped-and-aggregated payment frame before sorting:
Transaction_Count counts the Total_Amount column and Order_Count counts
the Order_ID column of each group. -/
def payBase (df : List CleanedRecord) : List PayRow :=
  (groupKeysStr (fun r => r.Payment_Method) df).map (fun k =>
    let g := df.filter (fun r => r.Payment_Method = k)
    { key := k
      Total_Revenue := round2 ((g.map (fun r => r.Total_Amount)).sum)
      Transaction_Count := (g.map (fun r => r.Total_Amount)).length
      Order_Count := (g.map (fun r => r.Order_ID)).length
      Usage_Pct := 0 })

/-- `analyze_payment_methods` (`src/analyzer.py` lines 194-217):
group by Payment_Method, sort descending by revenue, add the usage
share based on order-count share. -/
def analyze_payment_methods (df : List CleanedRecord) : List PayRow :=
  let sorted := sortRev (fun row => row.Total_Revenue) (payBase df)
  let T := (sorted.map (fun row => row.Order_Count)).sum
  sorted.map (usageUpd T)

/-- Lexicographic (Year, Month) group-key order used by the monthly
table of `analyze_by_time`. -/
def timeLe (a b : Int × Nat) : Prop :=
  a.1 < b.1 ∨ (a.1 = b.1 ∧ a.2 ≤ b.2)

instance : DecidableRel timeLe := fun a b =>
  inferInstanceAs (Decidable (_ ∨ _))

/-- The `'monthly'` table of `analyze_by_time` (`src/analyzer.py`
lines 118-124): group by (Year, Month), aggregate revenue sum, order
count and quantity sum, rounded to 2 decimals. -/
def analyze_by_time_monthly (df : List CleanedRecord) : List MonthlyRow :=
  (List.insertionSort timeLe
    (dedupSeen [] (df.map (fun r => (r.Year, r.Month))))).map (fun k =>
    let g := df.filter (fun r => r.Year = k.1 ∧ r.Month = k.2)
    { Year := k.1
      Month := k.2
      Revenue := round2 ((g.map (fun r => r.Total_Amount)).sum)
      Orders := g.length
      Quantity := (g.map (fun r => r.Quantity)).sum })

/-! ## `insights_generator.py` -/

/-- `Series.idxmax`: the first element attaining the maximum of `f`,
`none` on an empty table (pandas raises there). -/
def idxmaxBy {α} (f : α → ℚ) : List α → Option α
  | [] => none
  | x :: xs => some (xs.foldl (fun b y => if f b < f y then y else b) x)

/-- `Series.idxmin`: the first element attaining the minimum of `f`,
`none` on an empty table (pandas raises there). -/
def idxminBy {α} (f : α → ℚ) : List α → Option α
  | [] => none
  | x :: xs => some (xs.foldl (fun b y => if f y < f b then y else b) x)

/-- The facts extracted by `generate_insights_report` from the already
sorted aggregate tables (first rows, and the revenue extremes of the
monthly table). -/
structure InsightsFacts where
  top_category : String
  top_category_revenue : ℚ
  top_category_share : ℚ
  top_region : String
  top_product : String
  top_age_group : String
  top_payment : String
  best_month : Int × Nat
  worst_month : Int × Nat
deriving DecidableEq, Repr

/-- `generate_insights_report` (`src/insights_generator.py`): the fact
extraction performed while assembling the report, in source order
(category first, then region, product, demographics, payment, monthly
extremes).  Each access indexes the first row of a table, so an empty
table aborts the report with an IndexError, modelled as `none`; the
remaining report content is string formatting of these facts and the
KPIs. -/
def generate_insights_report (df : List CleanedRecord) (kpis : KPISet)
    (category_analysis region_analysis : List ShareRow)
    (monthly : List MonthlyRow) (top_products : List TopRow)
    (demo_analysis : List DemoRow) (payment_analysis : List PayRow) :
    Option InsightsFacts :=
  match category_analysis, region_analysis, top_products, demo_analysis, payment_analysis with
  | c0 :: _, r0 :: _, t0 :: _, d0 :: _, p0 :: _ =>
    match idxmaxBy (fun row => row.Revenue) monthly,
          idxminBy (fun row => row.Revenue) monthly with
    | some bm, some wm =>
      some { top_category := c0.key
             top_category_revenue := c0.Total_Revenue
             top_category_share := c0.Revenue_Share_Pct
             top_region := r0.key
             top_product := t0.Product_Name
             top_age_group := d0.key
             top_payment := p0.key
             best_month := (bm.Year, bm.Month)
             worst_month := (wm.Year, wm.Month) }
    | _, _ => none
  | _, _, _, _, _ => none

/-! ## Properties of the lexicographic string order -/

theorem char_toNat_inj {a b : Char} (h : a.toNat = b.toNat) : a = b :=
  Char.ext (UInt32.toNat.inj h)

theorem charListLe_refl (l : List Char) : charListLe l l = true := by
  induction l with
  | nil => rfl
  | cons a as ih => simp [charListLe, ih]

theorem charListLe_total (l₁ l₂ : List Char) :
    charListLe l₁ l₂ = true ∨ charListLe l₂ l₁ = true := by
  induction l₁ generalizing l₂ with
  | nil => exact Or.inl rfl
  | cons a as ih =>
    cases l₂ with
    | nil => exact Or.inr rfl
    | cons b bs =>
      rcases Nat.lt_trichotomy a.toNat b.toNat with h | h | h
      · left; simp [charListLe, Nat.blt_eq, h]
      · rcases ih bs with h2 | h2
        · left; simp [charListLe, Nat.blt_eq, h, h2]
        · right; simp [charListLe, Nat.blt_eq, h.symm, h2]
      · right; simp [charListLe, Nat.blt_eq, h]

theorem charListLe_trans {l₁ l₂ l₃ : List Char}
    (h1 : charListLe l₁ l₂ = true) (h2 : charListLe l₂ l₃ = true) :
    charListLe l₁ l₃ = true := by
  induction l₁ generalizing l₂ l₃ with
  | nil => rfl
  | cons a as ih =>
    cases l₂ with
    | nil => simp [charListLe] at h1
    | cons b bs =>
      cases l₃ with
      | nil => simp [charListLe] at h2
      | cons c cs =>
        simp only [charListLe, Bool.or_eq_true, Bool.and_eq_true, Nat.blt_eq,
          beq_iff_eq] at h1 h2 ⊢
        rcases h1 with h1 | ⟨h1e, h1t⟩
        · rcases h2 with h2 | ⟨h2e, _⟩
          · exact Or.inl (Nat.lt_trans h1 h2)
          · exact Or.inl (h2e ▸ h1)
        · rcases h2 with h2 | ⟨h2e, h2t⟩
          · exact Or.inl (h1e ▸ h2)
          · exact Or.inr ⟨h1e.trans h2e, ih h1t h2t⟩

theorem charListLe_antisymm {l₁ l₂ : List Char}
    (h1 : charListLe l₁ l₂ = true) (h2 : charListLe l₂ l₁ = true) :
    l₁ = l₂ := by
  induction l₁ generalizing l₂ with
  | nil =>
    cases l₂ with
    | nil => rfl
    | cons b bs => simp [charListLe] at h2
  | cons a as ih =>
    cases l₂ with
    | nil => simp [charListLe] at h1
    | cons b bs =>
      simp only [charListLe, Bool.or_eq_true, Bool.and_eq_true, Nat.blt_eq,
        beq_iff_eq] at h1 h2
      rcases h1 with h1 | ⟨h1e, h1t⟩
      · rcases h2 with h2 | ⟨h2e, _⟩
        · exact absurd (Nat.lt_trans h1 h2) (Nat.lt_irrefl _)
        · exact absurd h1 (by omega)
      · rcases h2 with h2 | ⟨_, h2t⟩
        · exact absurd h2 (by omega)
        · rw [char_toNat_inj h1e, ih h1t h2t]

theorem charListLt_iff (l₁ l₂ : List Char) :
    charListLt l₁ l₂ = true ↔ charListLe l₁ l₂ = true ∧ l₁ ≠ l₂ := by
  induction l₁ generalizing l₂ with
  | nil =>
    cases l₂ with
    | nil => simp [charListLt, charListLe]
    | cons b bs => simp [charListLt, charListLe]
  | cons a as ih =>
    cases l₂ with
    | nil => simp [charListLt, charListLe]
    | cons b bs =>
      simp only [charListLt, charListLe, Bool.or_eq_true, Bool.and_eq_true,
        Nat.blt_eq, beq_iff_eq, ne_eq, List.cons.injEq, not_and]
      constructor
      · rintro (h | ⟨he, ht⟩)
        · exact ⟨Or.inl h, fun hab _ => by subst hab; omega⟩
        · rcases (ih bs).1 ht with ⟨hle, hne⟩
          exact ⟨Or.inr ⟨he, hle⟩, fun _ hts => hne hts⟩
      · rintro ⟨h | ⟨he, ht⟩, hne⟩
        · exact Or.inl h
        · refine Or.inr ⟨he, (ih bs).2 ⟨ht, fun hts => hne (char_toNat_inj he) hts⟩⟩

theorem strLe_refl (a : String) : strLe a a = true := charListLe_refl _

theorem strLe_total (a b : String) : strLe a b = true ∨ strLe b a = true :=
  charListLe_total _ _

theorem strLe_trans {a b c : String} (h1 : strLe a b = true)
    (h2 : strLe b c = true) : strLe a c = true :=
  charListLe_trans h1 h2

theorem strLe_antisymm {a b : String} (h1 : strLe a b = true)
    (h2 : strLe b a = true) : a = b :=
  String.ext (charListLe_antisymm h1 h2)

theorem strLt_iff (a b : String) :
    strLt a b = true ↔ strLe a b = true ∧ a ≠ b := by
  unfold strLt strLe
  rw [charListLt_iff]
  constructor
  · rintro ⟨h1, h2⟩
    exact ⟨h1, fun hab => h2 (by rw [hab])⟩
  · rintro ⟨h1, h2⟩
    exact ⟨h1, fun hd => h2 (String.ext hd)⟩

theorem strLt_of_le_ne {a b : String} (h1 : strLe a b = true) (h2 : a ≠ b) :
    strLt a b = true := (strLt_iff a b).2 ⟨h1, h2⟩

theorem strLe_of_lt {a b : String} (h : strLt a b = true) : strLe a b = true :=
  ((strLt_iff a b).1 h).1

theorem strLt_ne {a b : String} (h : strLt a b = true) : a ≠ b :=
  ((strLt_iff a b).1 h).2

theorem strLt_trans {a b c : String} (h1 : strLt a b = true)
    (h2 : strLt b c = true) : strLt a c = true := by
  refine strLt_of_le_ne (strLe_trans (strLe_of_lt h1) (strLe_of_lt h2)) ?_
  rintro rfl
  exact strLt_ne h1 (strLe_antisymm (strLe_of_lt h1) (strLe_of_lt h2))

theorem strLt_of_lt_of_le {a b c : String} (h1 : strLt a b = true)
    (h2 : strLe b c = true) : strLt a c = true := by
  refine strLt_of_le_ne (strLe_trans (strLe_of_lt h1) h2) ?_
  rintro rfl
  exact strLt_ne h1 (strLe_antisymm (strLe_of_lt h1) h2)

theorem strLt_asymm {a b : String} (h1 : strLt a b = true) :
    ¬ strLt b a = true := fun h2 =>
  strLt_ne h1 (strLe_antisymm (strLe_of_lt h1) (strLe_of_lt h2))

instance : IsTotal String (fun a b => strLe a b = true) := ⟨strLe_total⟩

instance : IsTrans String (fun a b => strLe a b = true) :=
  ⟨fun _ _ _ => strLe_trans⟩

/-! ## Properties of the pair-key order -/

theorem pairLe_total (a b : String × String) :
    pairLe a b = true ∨ pairLe b a = true := by
  by_cases he : a.1 = b.1
  · rcases strLe_total a.2 b.2 with h | h
    · left; simp [pairLe, he, h]
    · right; simp [pairLe, he.symm, h]
  · rcases strLe_total a.1 b.1 with h | h
    · left; simp [pairLe, strLt_of_le_ne h he]
    · right; simp [pairLe, strLt_of_le_ne h (Ne.symm he)]

theorem pairLe_trans {a b c : String × String} (h1 : pairLe a b = true)
    (h2 : pairLe b c = true) : pairLe a c = true := by
  simp only [pairLe, Bool.or_eq_true, Bool.and_eq_true, beq_iff_eq] at h1 h2 ⊢
  rcases h1 with h1 | ⟨h1e, h1t⟩
  · rcases h2 with h2 | ⟨h2e, _⟩
    · exact Or.inl (strLt_trans h1 h2)
    · exact Or.inl (h2e ▸ h1)
  · rcases h2 with h2 | ⟨h2e, h2t⟩
    · exact Or.inl (h1e ▸ h2)
    · exact Or.inr ⟨h1e.trans h2e, strLe_trans h1t h2t⟩

instance : IsTotal (String × String) (fun a b => pairLe a b = true) :=
  ⟨pairLe_total⟩

instance : IsTrans (String × String) (fun a b => pairLe a b = true) :=
  ⟨fun _ _ _ => pairLe_trans⟩

/-! ## Properties of duplicate removal -/

theorem length_dedupSeen_add_countDups {α} [DecidableEq α] (seen l) :
    (dedupSeen (α := α) seen l).length + countDups seen l = l.length := by
  induction l generalizing seen with
  | nil => rfl
  | cons x xs ih =>
    by_cases h : x ∈ seen
    · simp only [dedupSeen, countDups, if_pos h, List.length_cons]
      have := ih seen
      omega
    · simp only [dedupSeen, countDups, if_neg h, List.length_cons]
      have := ih (x :: seen)
      omega

theorem mem_of_mem_dedupSeen {α} [DecidableEq α] {x : α} {seen l}
    (h : x ∈ dedupSeen seen l) : x ∈ l := by
  induction l generalizing seen with
  | nil => simpa [dedupSeen] using h
  | cons y ys ih =>
    by_cases hy : y ∈ seen
    · simp only [dedupSeen, if_pos hy] at h
      exact List.mem_cons_of_mem _ (ih h)
    · simp only [dedupSeen, if_neg hy, List.mem_cons] at h
      rcases h with h | h
      · exact h ▸ List.mem_cons_self _ _
      · exact List.mem_cons_of_mem _ (ih h)

theorem not_mem_seen_of_mem_dedupSeen {α} [DecidableEq α] {x : α} {seen l}
    (h : x ∈ dedupSeen seen l) : x ∉ seen := by
  induction l generalizing seen with
  | nil => simp [dedupSeen] at h
  | cons y ys ih =>
    by_cases hy : y ∈ seen
    · simp only [dedupSeen, if_pos hy] at h
      exact ih h
    · simp only [dedupSeen, if_neg hy, List.mem_cons] at h
      rcases h with h | h
      · exact h ▸ hy
      · intro hs
        exact ih h (List.mem_cons_of_mem _ hs)

theorem nodup_dedupSeen {α} [DecidableEq α] (seen l) :
    (dedupSeen (α := α) seen l).Nodup := by
  induction l generalizing seen with
  | nil => exact List.nodup_nil
  | cons y ys ih =>
    by_cases hy : y ∈ seen
    · simpa only [dedupSeen, if_pos hy] using ih seen
    · simp only [dedupSeen, if_neg hy]
      refine List.nodup_cons.2 ⟨fun hmem => ?_, ih (y :: seen)⟩
      exact not_mem_seen_of_mem_dedupSeen hmem (List.mem_cons_self _ _)

theorem dedupSeen_eq_self {α} [DecidableEq α] {seen l} (hnd : List.Nodup l)
    (hdisj : ∀ x ∈ l, x ∉ seen) : dedupSeen (α := α) seen l = l := by
  induction l generalizing seen with
  | nil => rfl
  | cons y ys ih =>
    have hy : y ∉ seen := hdisj y (List.mem_cons_self _ _)
    simp only [dedupSeen, if_neg hy]
    rw [ih (List.nodup_cons.1 hnd).2]
    intro x hx
    simp only [List.mem_cons, not_or]
    exact ⟨fun he => (List.nodup_cons.1 hnd).1 (he ▸ hx),
      hdisj x (List.mem_cons_of_mem _ hx)⟩

theorem countDups_eq_zero {α} [DecidableEq α] {seen l} (hnd : List.Nodup l)
    (hdisj : ∀ x ∈ l, x ∉ seen) : countDups (α := α) seen l = 0 := by
  have h1 := length_dedupSeen_add_countDups seen l
  rw [dedupSeen_eq_self hnd hdisj] at h1
  omega

theorem dedupSeen_ne_nil {α} [DecidableEq α] {l : List α} (h : l ≠ []) :
    dedupSeen [] l ≠ [] := by
  cases l with
  | nil => exact absurd rfl h
  | cons x xs => simp [dedupSeen]

/-! ## Properties of the stable descending sort -/

theorem mem_insertRev {α} {rev : α → ℚ} {x z : α} {l : List α} :
    z ∈ insertRev rev x l ↔ z = x ∨ z ∈ l := by
  induction l with
  | nil => simp [insertRev]
  | cons y ys ih =>
    by_cases h : rev x < rev y
    · simp only [insertRev, if_pos h, List.mem_cons, ih]
      tauto
    · simp only [insertRev, if_neg h, List.mem_cons]

theorem length_insertRev {α} (rev : α → ℚ) (x : α) (l : List α) :
    (insertRev rev x l).length = l.length + 1 := by
  induction l with
  | nil => rfl
  | cons y ys ih =>
    by_cases h : rev x < rev y
    · simp [insertRev, if_pos h, ih]
    · simp [insertRev, if_neg h]

theorem length_sortRev {α} (rev : α → ℚ) (l : List α) :
    (sortRev rev l).length = l.length := by
  induction l with
  | nil => rfl
  | cons x xs ih => simp [sortRev, List.foldr] at ih ⊢; rw [length_insertRev, ih]

theorem mem_sortRev {α} {rev : α → ℚ} {z : α} {l : List α} :
    z ∈ sortRev rev l ↔ z ∈ l := by
  induction l with
  | nil => simp [sortRev]
  | cons x xs ih =>
    simp only [sortRev, List.foldr] at ih ⊢
    rw [mem_insertRev, ih, List.mem_cons]

theorem sortRev_perm {α} (rev : α → ℚ) (l : List α) :
    List.Perm (sortRev rev l) l := by
  induction l with
  | nil => exact List.Perm.refl _
  | cons x xs ih =>
    simp only [sortRev, List.foldr] at ih ⊢
    have hp : List.Perm (insertRev rev x (List.foldr (insertRev rev) [] xs))
        (x :: List.foldr (insertRev rev) [] xs) := by
      generalize List.foldr (insertRev rev) [] xs = m
      induction m with
      | nil => exact List.Perm.refl _
      | cons y ys ihm =>
        by_cases h : rev x < rev y
        · simp only [insertRev, if_pos h]
          exact (ihm.cons y).trans (List.Perm.swap x y ys)
        · simp only [insertRev, if_neg h]
          exact List.Perm.refl _
    exact hp.trans (ih.cons x)

/-! ## Rounding error bounds -/

theorem abs_rne_sub_le (x : ℚ) : |(rne x : ℚ) - x| ≤ 1/2 := by
  unfold rne
  have hf0 : (0:ℚ) ≤ x - ⌊x⌋ := by
    have := Int.floor_le x
    linarith
  have hf1 : x - ⌊x⌋ < 1 := by
    have := Int.lt_floor_add_one x
    linarith
  by_cases h1 : x - ⌊x⌋ < 1/2
  · simp only [if_pos h1]
    rw [abs_le]
    constructor <;> linarith
  · by_cases h2 : 1/2 < x - ⌊x⌋
    · simp only [if_neg h1, if_pos h2, Int.cast_add, Int.cast_one]
      rw [abs_le]
      constructor <;> linarith
    · have heq : x - ⌊x⌋ = 1/2 := le_antisymm (not_lt.1 h2) (not_lt.1 h1)
      simp only [if_neg h1, if_neg h2]
      by_cases h3 : (⌊x⌋ : Int) % 2 = 0
      · simp only [if_pos h3]
        rw [abs_le]
        constructor <;> linarith
      · simp only [if_neg h3, Int.cast_add, Int.cast_one]
        rw [abs_le]
        constructor <;> linarith

theorem abs_round2_sub_le (x : ℚ) : |round2 x - x| ≤ 1/200 := by
  unfold round2
  have h := abs_rne_sub_le (100 * x)
  have h100 : |(100:ℚ)| = 100 := by norm_num
  calc |(rne (100 * x) : ℚ) / 100 - x|
      = |((rne (100 * x) : ℚ) - 100 * x) / 100| := by ring_nf
    _ = |(rne (100 * x) : ℚ) - 100 * x| / 100 := by
        rw [abs_div, h100]
    _ ≤ (1/2) / 100 := by
        apply div_le_div_of_nonneg_right h (by norm_num)
    _ = 1/200 := by norm_num

theorem abs_sum_map_round2_sub (xs : List ℚ) :
    |(xs.map round2).sum - xs.sum| ≤ (xs.length : ℚ) * (1/200) := by
  induction xs with
  | nil => simp
  | cons x xs ih =>
    simp only [List.map_cons, List.sum_cons, List.length_cons]
    have h1 := abs_round2_sub_le x
    calc |round2 x + (xs.map round2).sum - (x + xs.sum)|
        = |(round2 x - x) + ((xs.map round2).sum - xs.sum)| := by ring_nf
      _ ≤ |round2 x - x| + |(xs.map round2).sum - xs.sum| := abs_add _ _
      _ ≤ 1/200 + (xs.length : ℚ) * (1/200) := add_le_add h1 ih
      _ = ((xs.length : ℚ) + 1) * (1/200) := by ring
      _ = (((xs.length : Nat) + 1 : Nat) : ℚ) * (1/200) := by push_cast; ring

theorem sum_map_share (xs : List ℚ) (T : ℚ) :
    (xs.map (fun x => x / T * 100)).sum = xs.sum / T * 100 := by
  induction xs with
  | nil => simp
  | cons x xs ih =>
    simp only [List.map_cons, List.sum_cons, ih]
    ring

/-- Sum of the rounded share column: off from 100 by at most half a
percentage-point cent per row. -/
theorem shareSum_bound (xs : List ℚ) (h : xs.sum ≠ 0) :
    |(xs.map (fun x => round2 (x / xs.sum * 100))).sum - 100| ≤
      (xs.length : ℚ) * (1/200) := by
  have hmm : xs.map (fun x => round2 (x / xs.sum * 100)) =
      (xs.map (fun x => x / xs.sum * 100)).map round2 := by
    rw [List.map_map]; rfl
  have hsum : (xs.map (fun x => x / xs.sum * 100)).sum = 100 := by
    rw [sum_map_share, div_self h, one_mul]
  have hlen : (xs.map (fun x => x / xs.sum * 100)).length = xs.length :=
    List.length_map _ _
  calc |(xs.map (fun x => round2 (x / xs.sum * 100))).sum - 100|
      = |((xs.map (fun x => x / xs.sum * 100)).map round2).sum -
          (xs.map (fun x => x / xs.sum * 100)).sum| := by rw [hmm, hsum]
    _ ≤ ((xs.map (fun x => x / xs.sum * 100)).length : ℚ) * (1/200) :=
        abs_sum_map_round2_sub _
    _ = (xs.length : ℚ) * (1/200) := by rw [hlen]

/-! ## Claim theorems -/

/-- C3: for every record set, the cleaned output has exactly the input
row count minus the number of duplicate rows removed; outlier handling
never deletes a row. -/
theorem C3_row_count (rs : List SalesRecord) :
    (clean_sales_data rs).2.length =
      rs.length - (clean_sales_data rs).1.duplicates_removed := by
  have key := length_dedupSeen_add_countDups [] (rs.map fillAge)
  have hlen : (rs.map fillAge).length = rs.length := List.length_map _ _
  rcases hb : boundsOf ((dedupSeen [] (rs.map fillAge)).map
      (fun r => r.Total_Amount)) with _ | ⟨lb, ub⟩
  · simp only [clean_sales_data, hb, List.length_map]
    omega
  · simp only [clean_sales_data, hb, List.length_map]
    omega

/-- C8: the KPI discount rate is total discount over total revenue
times 100 when the total revenue is positive, and 0 when the total
revenue is zero. -/
theorem C8_discount_rate (df : List CleanedRecord) :
    (0 < (df.map (fun r => r.Total_Amount)).sum →
      (calculate_kpis df).Discount_Rate =
        (df.map (fun r => r.Discount)).sum /
          (df.map (fun r => r.Total_Amount)).sum * 100) ∧
    ((df.map (fun r => r.Total_Amount)).sum = 0 →
      (calculate_kpis df).Discount_Rate = 0) := by
  constructor
  · intro h
    simp [calculate_kpis, if_pos h]
  · intro h
    simp [calculate_kpis, h]

/-- C10: in `analyze_payment_methods`, the Transaction_Count and
Order_Count columns agree on every row: both count the rows of the
same group (the former counts the Total_Amount column, the latter the
Order_ID column, and neither column can be null). -/
theorem C10_payment_counts (df : List CleanedRecord) :
    ∀ row ∈ analyze_payment_methods df,
      row.Transaction_Count = row.Order_Count := by
  intro row hrow
  simp only [analyze_payment_methods, List.mem_map] at hrow
  obtain ⟨r0, hr0, rfl⟩ := hrow
  have hr0' : r0 ∈ payBase df := mem_sortRev.1 hr0
  simp only [payBase, List.mem_map] at hr0'
  obtain ⟨k, _, rfl⟩ := hr0'
  simp [usageUpd, List.length_map]

/-! ## Concrete datasets used by scenarios and counterexamples -/

/-- A raw record template for concrete scenarios. -/
def mkRaw (oid : String) (cat : String) (amt : ℚ) : SalesRecord :=
  { Order_ID := oid
    Order_Date := ⟨2023, 1, 1⟩
    Customer_ID := "C1"
    Product_Name := "P1"
    Category := cat
    Quantity := 1
    Unit_Price := amt
    Total_Amount := amt
    Discount := 0
    Region := "North"
    Payment_Method := "Card"
    Customer_Age_Group := some "25-34" }

/-- The five-record "Books" scenario of the spec: revenues
[10, 20, 30, 1000, 15]. -/
def scenarioBooks : List SalesRecord :=
  [mkRaw "O1" "Books" 10, mkRaw "O2" "Books" 20, mkRaw "O3" "Books" 30,
   mkRaw "O4" "Books" 1000, mkRaw "O5" "Books" 15]

/-- C2: cleaning computes Q1 and Q3 by linear interpolation, clamps
every out-of-bounds `Total_Amount` of the deduplicated set to the
violated bound and leaves in-bounds values untouched; on the concrete
five-record scenario Q1 = 15, Q3 = 30, the bounds are
[-7.5, 52.5], only the 1000 record is clamped (to 52.5), and the
cleaned total revenue is 127.5. -/
theorem C2_outlier_clamping :
    (∀ (rs : List SalesRecord) (lb ub : ℚ),
      boundsOf ((dedupSeen [] (rs.map fillAge)).map (fun r => r.Total_Amount)) =
        some (lb, ub) →
      (clean_sales_data rs).2.map (fun r => r.Total_Amount) =
        (dedupSeen [] (rs.map fillAge)).map (fun r =>
          if r.Total_Amount < lb then lb
          else if ub < r.Total_Amount then ub
          else r.Total_Amount)) ∧
    quantileLin (1/4) [10, 20, 30, 1000, 15] = some 15 ∧
    quantileLin (3/4) [10, 20, 30, 1000, 15] = some 30 ∧
    boundsOf [10, 20, 30, 1000, 15] = some (-15/2, 105/2) ∧
    (clean_sales_data scenarioBooks).2.map (fun r => r.Total_Amount) =
      [10, 20, 30, 105/2, 15] ∧
    ((clean_sales_data scenarioBooks).2.map (fun r => r.Total_Amount)).sum =
      255/2 := by
  refine ⟨?_, ?_, ?_, ?_, ?_, ?_⟩
  · intro rs lb ub hb
    simp only [clean_sales_data, hb, List.map_map]
    rfl
  · norm_num [quantileLin, List.insertionSort, List.orderedInsert]
    try norm_num [Int.toNat, List.getD]
  · norm_num [quantileLin, List.insertionSort, List.orderedInsert]
    try norm_num [Int.toNat, List.getD]
  · norm_num [boundsOf, quantileLin, List.insertionSort, List.orderedInsert]
    try norm_num [Int.toNat, List.getD]
  · norm_num [clean_sales_data, scenarioBooks, mkRaw, fillAge, dedupSeen,
      boundsOf, quantileLin, List.insertionSort, List.orderedInsert,
      clampAmount, finalize]
    try norm_num [Int.toNat, List.getD]
  · norm_num [clean_sales_data, scenarioBooks, mkRaw, fillAge, dedupSeen,
      boundsOf, quantileLin, List.insertionSort, List.orderedInsert,
      clampAmount, finalize]
    try norm_num [Int.toNat, List.getD]

/-- Witness for C2: the universal clamping clause applied to the
concrete scenario. -/
theorem C2_outlier_clamping_witness :
    (clean_sales_data scenarioBooks).2.map (fun r => r.Total_Amount) =
      (dedupSeen [] (scenarioBooks.map fillAge)).map (fun r =>
        if r.Total_Amount < (-15/2 : ℚ) then -15/2
        else if (105/2 : ℚ) < r.Total_Amount then 105/2
        else r.Total_Amount) := by
  refine C2_outlier_clamping.1 scenarioBooks (-15/2) (105/2) ?_
  norm_num [scenarioBooks, mkRaw, fillAge, dedupSeen, boundsOf,
    quantileLin, List.insertionSort, List.orderedInsert]
  try norm_num [Int.toNat, List.getD]

/-- A cleaned-record template for concrete scenarios, with derived
columns consistent with the base columns (date 2023-01-01, a Sunday). -/
def mkClean (oid prod cat : String) (amt : ℚ) : CleanedRecord :=
  { Order_ID := oid
    Order_Date := ⟨2023, 1, 1⟩
    Customer_ID := "C1"
    Product_Name := prod
    Category := cat
    Quantity := 1
    Unit_Price := amt
    Total_Amount := amt
    Discount := 0
    Region := "North"
    Payment_Method := "Card"
    Customer_Age_Group := "25-34"
    Year := 2023
    Month := 1
    Month_Name := "January"
    Quarter := 1
    Day_of_Week := "Sunday"
    Revenue_After_Discount := amt }

/-- Three cleaned records over three distinct products. -/
def dfTop : List CleanedRecord :=
  [mkClean "O1" "A" "X" 30, mkClean "O2" "B" "X" 20, mkClean "O3" "C" "X" 10]

/-- Witness for C8: a positive-revenue set takes the division branch,
the empty set takes the zero branch. -/
theorem C8_discount_rate_witness :
    (calculate_kpis dfTop).Discount_Rate =
      (dfTop.map (fun r => r.Discount)).sum /
        (dfTop.map (fun r => r.Total_Amount)).sum * 100 ∧
    (calculate_kpis ([] : List CleanedRecord)).Discount_Rate = 0 :=
  ⟨(C8_discount_rate dfTop).1 (by norm_num [dfTop, mkClean]),
   (C8_discount_rate []).2 (by norm_num)⟩

/-- The single payment row produced by `dfTop`. -/
def payRowCard : PayRow :=
  { key := "Card", Total_Revenue := 60, Transaction_Count := 3,
    Order_Count := 3, Usage_Pct := 100 }

/-- Witness for C10: the concrete payment table of `dfTop`. -/
theorem C10_payment_counts_witness :
    payRowCard.Transaction_Count = payRowCard.Order_Count := by
  refine C10_payment_counts dfTop payRowCard ?_
  norm_num [analyze_payment_methods, payBase, dfTop, mkClean, groupKeysStr,
    dedupSeen, List.insertionSort, List.orderedInsert, sortRev, insertRev,
    usageUpd, round2, rne, payRowCard]

/-- C7 counterexample: with the three-product set, `analyze_top_products`
at `top_n = 0` returns the empty table and at `top_n = -1` returns all
but one row; no error is raised at call time. -/
theorem C7_counterexample :
    analyze_top_products dfTop 0 = [] ∧
    (analyze_top_products dfTop (-1)).length = (topAll dfTop).length - 1 := by
  constructor
  · simp [analyze_top_products]
  · have h : ¬ ((0:Int) ≤ -1) := by norm_num
    simp [analyze_top_products, h]

/-- C7 amended: for `top_n ≤ 0` no error is raised; the operation
applies pandas `head` semantics — the empty table for `top_n = 0`, and
all rows except the last `|top_n|` for `top_n < 0`. -/
theorem C7_head_semantics (df : List CleanedRecord) :
    analyze_top_products df 0 = [] ∧
    (∀ n : Int, n < 0 →
      analyze_top_products df n =
        (topAll df).take ((topAll df).length - (-n).toNat)) := by
  constructor
  · simp [analyze_top_products]
  · intro n hn
    have h : ¬ ((0:Int) ≤ n) := not_le.2 hn
    simp [analyze_top_products, h]

/-- Witness for C7's amended theorem at `top_n = -2`. -/
theorem C7_head_semantics_witness :
    analyze_top_products dfTop 0 = [] ∧
    analyze_top_products dfTop (-2) =
      (topAll dfTop).take ((topAll dfTop).length - (-(-2 : Int)).toNat) :=
  ⟨(C7_head_semantics dfTop).1, (C7_head_semantics dfTop).2 (-2) (by norm_num)⟩

/-- C1 counterexample: on the empty record set `calculate_kpis` does
not raise; it returns a KPI set whose totals and discount rate are
zero (the claim asserts it must signal an EmptyDatasetError instead). -/
theorem C1_counterexample :
    (calculate_kpis []).Total_Revenue = 0 ∧
    (calculate_kpis []).Total_Orders = 0 ∧
    (calculate_kpis []).Discount_Rate = 0 := by
  refine ⟨rfl, rfl, ?_⟩
  simp [calculate_kpis, dedupSeen]

/-- C1 amended: no EmptyDatasetError exists in the code.  On zero
records `calculate_kpis` returns zeroed totals (with NaN means,
modelled as `none`); the aggregate tables are empty rather than an
error; and the insights synthesizer then fails on its very first
first-row access (an unhandled IndexError, modelled as `none`) instead
of producing a report. -/
theorem C1_empty_dataset :
    calculate_kpis [] =
      { Total_Revenue := 0, Total_Orders := 0, Average_Order_Value := none,
        Total_Quantity_Sold := 0, Average_Quantity_per_Order := none,
        Total_Discount_Given := 0, Discount_Rate := 0, Unique_Customers := 0,
        Unique_Products := 0, Unique_Categories := 0 } ∧
    analyze_by_category [] = [] ∧
    generate_insights_report [] (calculate_kpis []) (analyze_by_category [])
      (analyze_by_region []) (analyze_by_time_monthly [])
      (analyze_top_products [] 10) (analyze_customer_demographics [])
      (analyze_payment_methods []) = none := by
  refine ⟨?_, rfl, rfl⟩
  simp [calculate_kpis, dedupSeen]

/-! ## Share-sum bounds for the aggregate tables (C4) -/

theorem shareUpd_table_bound (l : List ShareRow)
    (h : 0 < (l.map (fun row => row.Total_Revenue)).sum) :
    |((l.map (shareUpd ((l.map (fun row => row.Total_Revenue)).sum))).map
        (fun row => row.Revenue_Share_Pct)).sum - 100| ≤
      ((l.map (shareUpd ((l.map (fun row => row.Total_Revenue)).sum))).length : ℚ) *
        (1/200) := by
  have hb := shareSum_bound (l.map (fun row => row.Total_Revenue)) (ne_of_gt h)
  have hshape :
      (l.map (shareUpd ((l.map (fun row => row.Total_Revenue)).sum))).map
          (fun row => row.Revenue_Share_Pct) =
        (l.map (fun row => row.Total_Revenue)).map
          (fun x => round2 (x / (l.map (fun row => row.Total_Revenue)).sum * 100)) := by
    rw [List.map_map, List.map_map]
    rfl
  have hlen :
      ((l.map (shareUpd ((l.map (fun row => row.Total_Revenue)).sum))).length : ℚ) =
        (((l.map (fun row => row.Total_Revenue)).length : Nat) : ℚ) := by
    simp
  rw [hshape, hlen]
  exact hb

theorem usageUpd_table_bound (l : List PayRow)
    (h1 : ∀ row ∈ l, 1 ≤ row.Order_Count) (h2 : l ≠ []) :
    |((l.map (usageUpd ((l.map (fun row => row.Order_Count)).sum))).map
        (fun row => row.Usage_Pct)).sum - 100| ≤
      ((l.map (usageUpd ((l.map (fun row => row.Order_Count)).sum))).length : ℚ) *
        (1/200) := by
  have hcast : (((l.map (fun row => row.Order_Count)).sum : Nat) : ℚ) =
      (l.map (fun row => ((row.Order_Count : Nat) : ℚ))).sum := by
    rw [Nat.cast_list_sum, List.map_map]
    rfl
  have hpos : 0 < (l.map (fun row => ((row.Order_Count : Nat) : ℚ))).sum := by
    refine List.sum_pos _ ?_ ?_
    · intro x hx
      rcases List.mem_map.1 hx with ⟨row, hrow, rfl⟩
      exact_mod_cast Nat.lt_of_lt_of_le Nat.zero_lt_one (h1 row hrow)
    · simpa using h2
  have hshape :
      (l.map (usageUpd ((l.map (fun row => row.Order_Count)).sum))).map
          (fun row => row.Usage_Pct) =
        (l.map (fun row => ((row.Order_Count : Nat) : ℚ))).map
          (fun x => round2 (x /
            (l.map (fun row => ((row.Order_Count : Nat) : ℚ))).sum * 100)) := by
    rw [List.map_map, List.map_map]
    simp only [← hcast]
    rfl
  have hlen :
      ((l.map (usageUpd ((l.map (fun row => row.Order_Count)).sum))).length : ℚ) =
        (((l.map (fun row => ((row.Order_Count : Nat) : ℚ))).length : Nat) : ℚ) := by
    simp
  rw [hshape, hlen]
  exact shareSum_bound _ (ne_of_gt hpos)

theorem payBase_order_count_pos (df : List CleanedRecord) :
    ∀ row ∈ payBase df, 1 ≤ row.Order_Count := by
  intro row hrow
  simp only [payBase, List.mem_map] at hrow
  obtain ⟨k, hk, rfl⟩ := hrow
  simp only [List.length_map]
  have hk2 : k ∈ dedupSeen [] (df.map (fun r => r.Payment_Method)) := by
    simpa [groupKeysStr, List.mem_insertionSort] using hk
  have hk' : k ∈ df.map (fun r => r.Payment_Method) := mem_of_mem_dedupSeen hk2
  rcases List.mem_map.1 hk' with ⟨r, hr, rfl⟩
  have hmem : r ∈ df.filter (fun x => x.Payment_Method = r.Payment_Method) := by
    simp [List.mem_filter, hr]
  have := List.length_pos.2 (List.ne_nil_of_mem hmem)
  omega

theorem payBase_ne_nil {df : List CleanedRecord} (h : df ≠ []) :
    payBase df ≠ [] := by
  intro hc
  have hd : dedupSeen [] (df.map (fun r => r.Payment_Method)) ≠ [] :=
    dedupSeen_ne_nil (by simpa using h)
  simp only [payBase, groupKeysStr] at hc
  have hsort := List.map_eq_nil_iff.1 hc
  have hperm := List.perm_insertionSort (fun a b => strLe a b = true)
    (dedupSeen [] (df.map (fun r => r.Payment_Method)))
  rw [hsort] at hperm
  exact hd hperm.symm.eq_nil

/-- C4 amended: in each share-carrying table the rounded shares sum to
100 up to half a cent (0.005) per group — not up to 0.01 overall —
whenever the share denominator is positive. -/
theorem C4_share_sums (df : List CleanedRecord) :
    (0 < ((analyze_by_category df).map (fun row => row.Total_Revenue)).sum →
      |((analyze_by_category df).map (fun row => row.Revenue_Share_Pct)).sum - 100| ≤
        ((analyze_by_category df).length : ℚ) * (1/200)) ∧
    (0 < ((analyze_by_region df).map (fun row => row.Total_Revenue)).sum →
      |((analyze_by_region df).map (fun row => row.Revenue_Share_Pct)).sum - 100| ≤
        ((analyze_by_region df).length : ℚ) * (1/200)) ∧
    (df ≠ [] →
      |((analyze_payment_methods df).map (fun row => row.Usage_Pct)).sum - 100| ≤
        ((analyze_payment_methods df).length : ℚ) * (1/200)) := by
  refine ⟨?_, ?_, ?_⟩
  · intro h
    have h' : 0 < ((sortRev (fun row => row.Total_Revenue)
        (shareBase (fun r => r.Category) df)).map
          (fun row => row.Total_Revenue)).sum := by
      simpa only [analyze_by_category, List.map_map] using h
    have hb := shareUpd_table_bound _ h'
    simpa only [analyze_by_category] using hb
  · intro h
    have h' : 0 < ((sortRev (fun row => row.Total_Revenue)
        (shareBase (fun r => r.Region) df)).map
          (fun row => row.Total_Revenue)).sum := by
      simpa only [analyze_by_region, List.map_map] using h
    have hb := shareUpd_table_bound _ h'
    simpa only [analyze_by_region] using hb
  · intro h
    have h1 : ∀ row ∈ sortRev (fun row => row.Total_Revenue) (payBase df),
        1 ≤ row.Order_Count := fun row hrow =>
      payBase_order_count_pos df row (mem_sortRev.1 hrow)
    have h2 : sortRev (fun row => row.Total_Revenue) (payBase df) ≠ [] := by
      intro hc
      have := length_sortRev (fun (row : PayRow) => row.Total_Revenue) (payBase df)
      rw [hc] at this
      exact payBase_ne_nil h (List.eq_nil_of_length_eq_zero this.symm)
    have hb := usageUpd_table_bound _ h1 h2
    simpa only [analyze_payment_methods] using hb

/-- Seven cleaned records in seven distinct categories, revenue 1 each:
every share rounds 100/7 = 14.2857… up to 14.29. -/
def dfSeven : List CleanedRecord :=
  [mkClean "O1" "P" "A" 1, mkClean "O2" "P" "B" 1, mkClean "O3" "P" "C" 1,
   mkClean "O4" "P" "D" 1, mkClean "O5" "P" "E" 1, mkClean "O6" "P" "F" 1,
   mkClean "O7" "P" "G" 1]

/-- C4 counterexample: on seven equal-revenue categories the
Revenue_Share_% column sums to 100.03, which is not within ±0.01 of
100. -/
theorem C4_counterexample :
    ((analyze_by_category dfSeven).map (fun row => row.Revenue_Share_Pct)).sum =
      10003/100 ∧
    ¬ (|((analyze_by_category dfSeven).map
        (fun row => row.Revenue_Share_Pct)).sum - 100| ≤ 1/100) := by
  have hkeys : groupKeysStr (fun r => r.Category) dfSeven =
      ["A", "B", "C", "D", "E", "F", "G"] := by decide
  have hA : dfSeven.filter (fun r => r.Category = "A") = [mkClean "O1" "P" "A" 1] := by decide
  have hB : dfSeven.filter (fun r => r.Category = "B") = [mkClean "O2" "P" "B" 1] := by decide
  have hC : dfSeven.filter (fun r => r.Category = "C") = [mkClean "O3" "P" "C" 1] := by decide
  have hD : dfSeven.filter (fun r => r.Category = "D") = [mkClean "O4" "P" "D" 1] := by decide
  have hE : dfSeven.filter (fun r => r.Category = "E") = [mkClean "O5" "P" "E" 1] := by decide
  have hF : dfSeven.filter (fun r => r.Category = "F") = [mkClean "O6" "P" "F" 1] := by decide
  have hG : dfSeven.filter (fun r => r.Category = "G") = [mkClean "O7" "P" "G" 1] := by decide
  have h : ((analyze_by_category dfSeven).map
      (fun row => row.Revenue_Share_Pct)).sum = 10003/100 := by
    norm_num [analyze_by_category, shareBase, hkeys, hA, hB, hC, hD, hE, hF, hG,
      mkClean, sortRev, insertRev, shareUpd, round2, rne]
  refine ⟨h, ?_⟩
  rw [h]
  rw [show |(10003:ℚ)/100 - 100| = 3/100 from by rw [abs_of_nonneg] <;> norm_num]
  norm_num

/-- The category table of `dfSeven` carries total revenue 7. -/
theorem dfSeven_cat_rev_sum :
    ((analyze_by_category dfSeven).map (fun row => row.Total_Revenue)).sum = 7 := by
  have hkeys : groupKeysStr (fun r => r.Category) dfSeven =
      ["A", "B", "C", "D", "E", "F", "G"] := by decide
  have hA : dfSeven.filter (fun r => r.Category = "A") = [mkClean "O1" "P" "A" 1] := by decide
  have hB : dfSeven.filter (fun r => r.Category = "B") = [mkClean "O2" "P" "B" 1] := by decide
  have hC : dfSeven.filter (fun r => r.Category = "C") = [mkClean "O3" "P" "C" 1] := by decide
  have hD : dfSeven.filter (fun r => r.Category = "D") = [mkClean "O4" "P" "D" 1] := by decide
  have hE : dfSeven.filter (fun r => r.Category = "E") = [mkClean "O5" "P" "E" 1] := by decide
  have hF : dfSeven.filter (fun r => r.Category = "F") = [mkClean "O6" "P" "F" 1] := by decide
  have hG : dfSeven.filter (fun r => r.Category = "G") = [mkClean "O7" "P" "G" 1] := by decide
  norm_num [analyze_by_category, shareBase, hkeys, hA, hB, hC, hD, hE, hF, hG,
    mkClean, sortRev, insertRev, shareUpd, round2, rne]

/-- The region table of `dfSeven` carries total revenue 7. -/
theorem dfSeven_reg_rev_sum :
    ((analyze_by_region dfSeven).map (fun row => row.Total_Revenue)).sum = 7 := by
  have hkeys : groupKeysStr (fun r => r.Region) dfSeven = ["North"] := by decide
  have hN : dfSeven.filter (fun r => r.Region = "North") =
      [mkClean "O1" "P" "A" 1, mkClean "O2" "P" "B" 1, mkClean "O3" "P" "C" 1,
       mkClean "O4" "P" "D" 1, mkClean "O5" "P" "E" 1, mkClean "O6" "P" "F" 1,
       mkClean "O7" "P" "G" 1] := by decide
  norm_num [analyze_by_region, shareBase, hkeys, hN,
    mkClean, sortRev, insertRev, shareUpd, round2, rne]

/-- Witness for C4's amended theorem: the three share-sum bounds at the
seven-category set. -/
theorem C4_share_sums_witness :
    (|((analyze_by_category dfSeven).map (fun row => row.Revenue_Share_Pct)).sum - 100| ≤
      ((analyze_by_category dfSeven).length : ℚ) * (1/200)) ∧
    (|((analyze_by_region dfSeven).map (fun row => row.Revenue_Share_Pct)).sum - 100| ≤
      ((analyze_by_region dfSeven).length : ℚ) * (1/200)) ∧
    (|((analyze_payment_methods dfSeven).map (fun row => row.Usage_Pct)).sum - 100| ≤
      ((analyze_payment_methods dfSeven).length : ℚ) * (1/200)) :=
  ⟨(C4_share_sums dfSeven).1 (by rw [dfSeven_cat_rev_sum]; norm_num),
   (C4_share_sums dfSeven).2.1 (by rw [dfSeven_reg_rev_sum]; norm_num),
   (C4_share_sums dfSeven).2.2 (by simp [dfSeven])⟩

/-! ## Idempotence of cleaning (C9) -/

/-- A cleaned record whose derived columns agree with its base columns,
i.e. a record as `clean_sales_data` itself would have produced it. -/
def derivedOk (r : CleanedRecord) : Prop :=
  r.Year = r.Order_Date.year ∧
  r.Month = r.Order_Date.month ∧
  r.Month_Name = monthName r.Order_Date.month ∧
  r.Quarter = quarterOf r.Order_Date.month ∧
  r.Day_of_Week = dayOfWeekName r.Order_Date ∧
  r.Revenue_After_Discount = r.Total_Amount - r.Discount

/-- No `Total_Amount` of the set lies outside the set's own IQR outlier
bounds. -/
def outlierFree (rs : List CleanedRecord) : Bool :=
  match boundsOf (rs.map (fun r => r.Total_Amount)) with
  | none => true
  | some (lb, ub) =>
    rs.all (fun r => decide (lb ≤ r.Total_Amount ∧ r.Total_Amount ≤ ub))

theorem rederive_eq_self {r : CleanedRecord} (h : derivedOk r) :
    rederive r = r := by
  obtain ⟨e1, e2, e3, e4, e5, e6⟩ := h
  cases r
  simp_all [rederive]

/-- C9: applying the cleaning pipeline to an already-cleaned record set
with no duplicate rows and no out-of-bounds amounts returns it
unchanged, with a report of zero missing values filled, zero
duplicates removed and zero outliers capped.  (The age-group column of
a cleaned frame is a plain string column, so the missing-value count is
zero by construction.) -/
theorem C9_idempotence (rs : List CleanedRecord) (h1 : rs.Nodup)
    (h2 : ∀ r ∈ rs, derivedOk r) (h3 : outlierFree rs = true) :
    clean_sales_data_again rs = (⟨0, 0, 0⟩, rs) := by
  have hded : dedupSeen [] rs = rs := dedupSeen_eq_self h1 (by simp)
  have hcnt : countDups [] rs = 0 := countDups_eq_zero h1 (by simp)
  have hmap : rs.map rederive = rs := by
    have h := List.map_congr_left (fun r hr => rederive_eq_self (h2 r hr))
    simpa using h
  simp only [clean_sales_data_again, hded, hcnt]
  rcases hb : boundsOf (rs.map (fun r => r.Total_Amount)) with _ | ⟨lb, ub⟩
  · simp only [hb, hmap]
  · have hbounds : ∀ r ∈ rs, lb ≤ r.Total_Amount ∧ r.Total_Amount ≤ ub := by
      intro r hr
      have h := h3
      unfold outlierFree at h
      rw [hb, List.all_eq_true] at h
      simpa using h r hr
    have hclamp : rs.map (clampAmountC lb ub) = rs := by
      have h : rs.map (clampAmountC lb ub) = rs.map id :=
        List.map_congr_left (fun r hr => by
          rcases hbounds r hr with ⟨hl, hu⟩
          simp [clampAmountC, not_lt.2 hl, not_lt.2 hu])
      simpa using h
    have hfilter : (rs.filter (fun r =>
        decide (r.Total_Amount < lb) || decide (ub < r.Total_Amount))).length = 0 := by
      rw [List.length_eq_zero, List.filter_eq_nil_iff]
      intro r hr
      rcases hbounds r hr with ⟨hl, hu⟩
      simp [not_lt.2 hl, not_lt.2 hu]
    simp only [hb, hclamp, hfilter, hmap]

/-- A one-record cleaned set for the idempotence witness. -/
def dfOne : List CleanedRecord := [mkClean "O1" "P" "X" 10]

/-- Witness for C9: the singleton cleaned set is returned unchanged
with an all-zero report. -/
theorem C9_idempotence_witness :
    clean_sales_data_again dfOne = (⟨0, 0, 0⟩, dfOne) := by
  refine C9_idempotence dfOne (by simp [dfOne]) ?_ ?_
  · intro r hr
    simp only [dfOne, List.mem_singleton] at hr
    subst hr
    refine ⟨rfl, rfl, rfl, rfl, rfl, ?_⟩
    norm_num [mkClean]
  · norm_num [outlierFree, boundsOf, quantileLin, dfOne, mkClean,
      List.insertionSort, List.orderedInsert]
    try norm_num [Int.toNat, List.getD]

end Sales

